import Mathlib

/-!
# RC circuit transient simulation (`src/main.cpp`)

A shallow embedding of the C++ program and the properties its specification states.

Modelling conventions.

* Every `std::unique_ptr<double>` slot is an `Option`: `none` is the null pointer, `some x`
  a slot that owns the value `x`.
* The classes and the driver are generic in the scalar type `α` that stands for `double`; a
  function only asks for the operations its body uses.  Two scalar types are instantiated:
  `Binary64`, the IEEE-754 arithmetic the program runs on (round to nearest, ties to even,
  with infinities, NaN and signed zeros), and `ℚ`, exact arithmetic.  Statements that need
  no law of arithmetic are proved for every `α`, hence for `Binary64`; statements that rest
  on the laws of a field are proved for `ℚ` and say so.
* A method is a function from the receiver and the arguments to the new receiver, paired with
  what else the call produces: the lines written to `std::cerr`, or the returned value.
* Dereferencing a null slot is undefined behaviour; a getter returns `none` there.
-/

namespace RCCircuit

/-! ## Class `Component` -/

/-- Class `Component` of `main.cpp`: the three owned slots `time`, `voltage`, `current`. -/
structure Component (α : Type) where
  time : Option α
  voltage : Option α
  current : Option α
deriving DecidableEq, Repr

/-- Method `Component::setTime`: the slot takes over the pointer passed in (possibly null). -/
def Component.setTime {α : Type} (self : Component α) (time : Option α) : Component α :=
  { self with time := time }

/-- Method `Component::setVoltage`. -/
def Component.setVoltage {α : Type} (self : Component α) (voltage : Option α) : Component α :=
  { self with voltage := voltage }

/-- Method `Component::setCurrent`. -/
def Component.setCurrent {α : Type} (self : Component α) (current : Option α) : Component α :=
  { self with current := current }

/-- Method `Component::getTime`, `return *time;` (`none` when the slot is null). -/
def Component.getTime {α : Type} (self : Component α) : Option α := self.time

/-- Method `Component::getVoltage`, `return *voltage;`. -/
def Component.getVoltage {α : Type} (self : Component α) : Option α := self.voltage

/-- Method `Component::getCurrent`, `return *current;`. -/
def Component.getCurrent {α : Type} (self : Component α) : Option α := self.current

/-! ## Class `Capacator` -/

/-- Class `Capacator : public Component`, with the capacitance slot `C`. -/
structure Capacator (α : Type) extends Component α where
  C : Option α
deriving DecidableEq, Repr

/-- The line `Capacator::updateVoltage` writes to `std::cerr` on its `else` branch. -/
def Capacator.errorMessage : String := "Error: Voltage or Capacitance is not initialized."

/-- Method `Capacator::setC`. -/
def Capacator.setC {α : Type} (self : Capacator α) (C : Option α) : Capacator α :=
  { self with C := C }

/-- Method `setTime` as `Capacator` inherits it from `Component`. -/
def Capacator.setTime {α : Type} (self : Capacator α) (time : Option α) : Capacator α :=
  { self with toComponent := self.toComponent.setTime time }

/-- Method `setVoltage` as `Capacator` inherits it from `Component`. -/
def Capacator.setVoltage {α : Type} (self : Capacator α) (voltage : Option α) :
    Capacator α :=
  { self with toComponent := self.toComponent.setVoltage voltage }

/-- Method `setCurrent` as `Capacator` inherits it from `Component`. -/
def Capacator.setCurrent {α : Type} (self : Capacator α) (current : Option α) :
    Capacator α :=
  { self with toComponent := self.toComponent.setCurrent current }

/-- Method `Capacator::getC`, `return *C;`. -/
def Capacator.getC {α : Type} (self : Capacator α) : Option α := self.C

/-- Method `Capacator::calculateCurrent`, `return (*C) * dVdt;`: the returned value (`none`
when `C` is null) and the receiver after the call. -/
def Capacator.calculateCurrent {α : Type} [Mul α] (self : Capacator α) (dVdt : α) :
    Option α × Capacator α :=
  (match self.C with
   | some c => some (c * dVdt)
   | none => none,
   self)

/-- Method `Capacator::updateVoltage`: the receiver after the call and the lines written to
`std::cerr`.  The guard is `if (voltage && C)`, the assignment
`*voltage = *voltage + I * deltaT * (1 / *C);`. -/
def Capacator.updateVoltage {α : Type} [Add α] [Mul α] [Div α] [One α]
    (self : Capacator α) (I deltaT : α) : Capacator α × List String :=
  match self.voltage, self.C with
  | some v, some c => ({ self with voltage := some (v + I * deltaT * (1 / c)) }, [])
  | _, _ => (self, [Capacator.errorMessage])

/-! ## Class `Resister` -/

/-- Class `Resister : public Component`, with the resistance slot `r`. -/
structure Resister (α : Type) extends Component α where
  r : Option α
deriving DecidableEq, Repr

/-- The line `Resister::updateCurrent` writes to `std::cerr` on its `else` branch. -/
def Resister.errorMessage : String := "Error: Current or Resistance is not initialized."

/-- Method `Resister::setR`. -/
def Resister.setR {α : Type} (self : Resister α) (r : Option α) : Resister α :=
  { self with r := r }

/-- Method `setTime` as `Resister` inherits it from `Component`. -/
def Resister.setTime {α : Type} (self : Resister α) (time : Option α) : Resister α :=
  { self with toComponent := self.toComponent.setTime time }

/-- Method `setVoltage` as `Resister` inherits it from `Component`. -/
def Resister.setVoltage {α : Type} (self : Resister α) (voltage : Option α) : Resister α :=
  { self with toComponent := self.toComponent.setVoltage voltage }

/-- Method `setCurrent` as `Resister` inherits it from `Component`. -/
def Resister.setCurrent {α : Type} (self : Resister α) (current : Option α) : Resister α :=
  { self with toComponent := self.toComponent.setCurrent current }

/-- Method `Resister::getR`, `return *r;`. -/
def Resister.getR {α : Type} (self : Resister α) : Option α := self.r

/-- Method `Resister::updateCurrent`: the receiver after the call and the lines written to
`std::cerr`.  The guard is `if (current && r)`, the assignment
`*current = *current - (*current / (*r * C)) * deltaT;`. -/
def Resister.updateCurrent {α : Type} [Sub α] [Mul α] [Div α]
    (self : Resister α) (deltaT C : α) : Resister α × List String :=
  match self.current, self.r with
  | some i, some r => ({ self with current := some (i - (i / (r * C)) * deltaT) }, [])
  | _, _ => (self, [Resister.errorMessage])

/-- The resistor after `n` successive calls `updateCurrent(deltaT, C)`. -/
def Resister.updateCurrentTimes {α : Type} [Sub α] [Mul α] [Div α]
    (self : Resister α) (deltaT C : α) (n : Nat) : Resister α :=
  (fun s => (Resister.updateCurrent s deltaT C).1)^[n] self

/-! ## Free function -/

/-- Function `calculateDerivative`, `return (V2 - V1) / (t2 - t1);`. -/
def calculateDerivative {α : Type} [Sub α] [Div α] (V1 V2 t1 t2 : α) : α :=
  (V2 - V1) / (t2 - t1)

/-! ## IEEE-754 binary64

C++ gives `double` the binary64 format and rounds the result of every operation to the
nearest value of the format, ties to the one with an even significand.  The operations
below compute the exact result in integers and round it once. -/

/-- A binary64 value.  `fin neg m e` is the finite value `(-1) ^ neg * m * 2 ^ e`; the
values of the format have `m < 2 ^ 53` and `-1074 ≤ e ≤ 971`, and are written with
`2 ^ 52 ≤ m` unless `e = -1074` (the subnormal values and the two zeros). -/
inductive Binary64 where
  | nan
  | inf (neg : Bool)
  | fin (neg : Bool) (m : Nat) (e : Int)
deriving DecidableEq, Repr

namespace Binary64

/-- `bitLog j n` is `⌊log₂ n⌋` for `0 < n < 2 ^ 2 ^ j`, by binary search on the exponent
(`a <<< k` is `a * 2 ^ k` and `a >>> k` is `a / 2 ^ k`). -/
def bitLog : Nat → Nat → Nat
  | 0, _ => 0
  | j + 1, n =>
    if 1 <<< (1 <<< j) ≤ n then (1 <<< j) + bitLog j (n >>> (1 <<< j)) else bitLog j n

/-- `⌊log₂ (num / den)⌋` for positive `num` and `den` below `2 ^ 4096`, which bounds every
integer the operations form from values of the format. -/
def floorLog2 (num den : Nat) : Int :=
  let d : Int := (bitLog 12 num : Int) - (bitLog 12 den : Int)
  if den <<< d.toNat ≤ num <<< (-d).toNat then d else d - 1

/-- The integer nearest to `num / den`, ties to the even one. -/
def nearestEven (num den : Nat) : Nat :=
  let q := num / den
  let r := num % den
  if 2 * r < den then q
  else if den < 2 * r then q + 1
  else if q % 2 = 0 then q else q + 1

/-- The binary64 value nearest to `(-1) ^ neg * num / den`, ties to even: the significand is
`num / den` scaled by the spacing `2 ^ e` of the format at that magnitude (`e ≥ -1074`:
below the normal range the spacing stays `2 ^ (-1074)`) and rounded to an integer; a
result past the largest finite value is an infinity. -/
def round (neg : Bool) (num den : Nat) : Binary64 :=
  if num = 0 then fin neg 0 (-1074)
  else
    let e : Int := max (floorLog2 num den - 52) (-1074)
    let m := nearestEven (num <<< (-e).toNat) (den <<< e.toNat)
    if m = 1 <<< 53 then
      if 971 < e + 1 then inf neg else fin neg (1 <<< 52) (e + 1)
    else if 971 < e then inf neg else fin neg m e

/-- The integer `(-1) ^ neg * m`. -/
def signed (neg : Bool) (m : Nat) : Int := if neg then -(m : Int) else (m : Int)

/-- Unary minus: the sign bit is flipped. -/
def neg : Binary64 → Binary64
  | nan => nan
  | inf s => inf (!s)
  | fin s m e => fin (!s) m e

/-- Addition.  An exact sum `0` is `+0`, except that `-0 + -0` is `-0`. -/
def add : Binary64 → Binary64 → Binary64
  | nan, _ => nan
  | _, nan => nan
  | inf a, inf b => if a = b then inf a else nan
  | inf a, fin _ _ _ => inf a
  | fin _ _ _, inf b => inf b
  | fin s₁ m₁ e₁, fin s₂ m₂ e₂ =>
    let e := min e₁ e₂
    let s : Int := signed s₁ (m₁ <<< (e₁ - e).toNat) + signed s₂ (m₂ <<< (e₂ - e).toNat)
    if s = 0 then fin (s₁ && s₂) 0 (-1074)
    else round (decide (s < 0)) (s.natAbs <<< e.toNat) (1 <<< (-e).toNat)

/-- Subtraction, `a - b = a + (-b)`. -/
def sub (a b : Binary64) : Binary64 := add a (neg b)

/-- Multiplication; `inf * 0` is NaN. -/
def mul : Binary64 → Binary64 → Binary64
  | nan, _ => nan
  | _, nan => nan
  | inf a, inf b => inf (xor a b)
  | inf a, fin s m _ => if m = 0 then nan else inf (xor a s)
  | fin s m _, inf b => if m = 0 then nan else inf (xor s b)
  | fin s₁ m₁ e₁, fin s₂ m₂ e₂ =>
    let e := e₁ + e₂
    round (xor s₁ s₂) ((m₁ * m₂) <<< e.toNat) (1 <<< (-e).toNat)

/-- Division; `x / 0` is an infinity for `x ≠ 0`, and `0 / 0` and `inf / inf` are NaN. -/
def div : Binary64 → Binary64 → Binary64
  | nan, _ => nan
  | _, nan => nan
  | inf _, inf _ => nan
  | inf a, fin s _ _ => inf (xor a s)
  | fin s _ _, inf b => fin (xor s b) 0 (-1074)
  | fin s₁ m₁ e₁, fin s₂ m₂ e₂ =>
    if m₂ = 0 then (if m₁ = 0 then nan else inf (xor s₁ s₂))
    else
      let e := e₁ - e₂
      round (xor s₁ s₂) (m₁ <<< e.toNat) (m₂ <<< (-e).toNat)

/-- The comparison `a < b` of IEEE-754: false when an operand is NaN, and `-0 = +0`. -/
def lt : Binary64 → Binary64 → Bool
  | nan, _ => false
  | _, nan => false
  | inf a, inf b => a && !b
  | inf a, fin _ _ _ => a
  | fin _ _ _, inf b => !b
  | fin s₁ m₁ e₁, fin s₂ m₂ e₂ =>
    let e := min e₁ e₂
    decide (signed s₁ (m₁ <<< (e₁ - e).toNat) < signed s₂ (m₂ <<< (e₂ - e).toNat))

/-- The rational number a finite value stands for. -/
def toRat : Binary64 → Option ℚ
  | fin s m e => some ((if s then -1 else 1) * (m : ℚ) * 2 ^ e)
  | _ => none

/-- Conversion `double -> int` of C++: truncation toward zero, undefined (`none`) for NaN,
an infinity, or a result that does not fit a 32-bit `int`. -/
def toInt : Binary64 → Option Int
  | fin s m e =>
    let t := signed s (if 0 ≤ e then m <<< e.toNat else m >>> (-e).toNat)
    if -2 ^ 31 ≤ t ∧ t < 2 ^ 31 then some t else none
  | _ => none

end Binary64

instance : Add Binary64 := ⟨Binary64.add⟩

instance : Sub Binary64 := ⟨Binary64.sub⟩

instance : Mul Binary64 := ⟨Binary64.mul⟩

instance : Div Binary64 := ⟨Binary64.div⟩

instance : Neg Binary64 := ⟨Binary64.neg⟩

instance : LT Binary64 := ⟨fun a b => Binary64.lt a b = true⟩

instance (a b : Binary64) : Decidable (a < b) :=
  inferInstanceAs (Decidable (Binary64.lt a b = true))

/-- Conversion `int -> double`, rounded when the integer has more than 53 bits. -/
instance : NatCast Binary64 := ⟨fun n => Binary64.round false n 1⟩

instance (n : Nat) : OfNat Binary64 n := ⟨Binary64.round false n 1⟩

instance : One Binary64 := ⟨Binary64.round false 1 1⟩

/-- A decimal literal `m e±k` of the source, rounded to binary64. -/
instance : OfScientific Binary64 :=
  ⟨fun m negExp k =>
    if negExp then Binary64.round false m (10 ^ k) else Binary64.round false (m * 10 ^ k) 1⟩

/-! ## The driver `main` -/

/-- The two member calls the loop of `main` makes in every iteration. -/
inductive Call where
  | updateVoltage
  | updateCurrent
deriving DecidableEq, Repr

/-- One status line of `main`: the three numbers it sends to `std::cout`. -/
structure Sample (α : Type) where
  time : α
  voltage : α
  current : α
deriving DecidableEq, Repr

/-- State of `main` while its loop runs: the two objects, what has been written to
`std::cout` and `std::cerr`, and the member calls made so far (oldest first). -/
structure Sim (α : Type) where
  cap : Capacator α
  res : Resister α
  cout : List (Sample α)
  cerr : List String
  calls : List Call
deriving DecidableEq, Repr

/-- Conversion `double -> int` of C++ on a scalar type. -/
class ToInt (α : Type) where
  toInt : α → Option Int

/-- Conversion `double -> int` of C++ in exact arithmetic: the fractional part is discarded
(truncation toward zero); the behaviour is undefined (`none`) when the result does not fit a
32-bit `int`. -/
def toInt (x : ℚ) : Option Int :=
  let t := Int.tdiv x.num x.den
  if -2 ^ 31 ≤ t ∧ t < 2 ^ 31 then some t else none

instance : ToInt ℚ := ⟨toInt⟩

instance : ToInt Binary64 := ⟨Binary64.toInt⟩

/-- Local `deltaT` of `main`. -/
def deltaT (α : Type) [OfScientific α] : α := 1e-10

/-- Local `finalTime` of `main`. -/
def finalTime (α : Type) [OfScientific α] : α := 5e-6

/-- Local `numTimeSteps` of `main`, `int numTimeSteps = (finalTime / deltaT);`. -/
def numTimeSteps (α : Type) [OfScientific α] [Div α] [ToInt α] : Option Int :=
  ToInt.toInt (finalTime α / deltaT α)

/-- The objects `cap` and `res` as `main` constructs them, with nothing written yet. -/
def init (α : Type) [OfScientific α] : Sim α :=
  { cap := { time := some 0.0, voltage := some 0.0, current := some 1e-2, C := some 100e-12 }
    res := { time := some 0.0, voltage := some 0.0, current := some 1e-2, r := some 1e3 }
    cout := []
    cerr := []
    calls := [] }

/-- Body of the `for` loop of `main` at index `i`; `none` when a getter dereferences a null
slot. -/
def loopBody {α : Type} [Add α] [Sub α] [Mul α] [Div α] [One α] [NatCast α]
    (deltaT : α) (i : Nat) (s : Sim α) : Option (Sim α) := do
  let I ← s.cap.getCurrent
  let (cap, e₁) := s.cap.updateVoltage I deltaT
  let C ← cap.getC
  let (res, e₂) := s.res.updateCurrent deltaT C
  let s' : Sim α :=
    { cap := cap, res := res, cout := s.cout, cerr := s.cerr ++ e₁ ++ e₂,
      calls := s.calls ++ [Call.updateVoltage, Call.updateCurrent] }
  if i % 200 = 0 then
    let v ← cap.getVoltage
    let j ← res.getCurrent
    pure { s' with cout := s'.cout ++ [{ time := (i : α) * deltaT, voltage := v, current := j }] }
  else
    pure s'

/-- The loop `for (int i = 0; i < numTimeSteps; ++i)` from index `i` on, with `remaining`
iterations still to run (`numTimeSteps - i`). -/
def forLoop {α : Type} [Add α] [Sub α] [Mul α] [Div α] [One α] [NatCast α]
    (deltaT : α) : (i remaining : Nat) → Sim α → Option (Sim α)
  | _, 0, s => some s
  | i, k + 1, s =>
    match loopBody deltaT i s with
    | some s' => forLoop deltaT (i + 1) k s'
    | none => none

/-- Function `main`: the exit status and the final state, `none` on undefined behaviour. -/
def main (α : Type) [Add α] [Sub α] [Mul α] [Div α] [One α] [NatCast α] [OfScientific α]
    [ToInt α] : Option (Int × Sim α) := do
  let n ← numTimeSteps α
  let s ← forLoop (deltaT α) 0 n.toNat (init α)
  pure (0, s)

/-- Every slot of both objects of the driver holds a value. -/
def Sim.initialised {α : Type} (s : Sim α) : Bool :=
  s.cap.time.isSome && s.cap.voltage.isSome && s.cap.current.isSome && s.cap.C.isSome &&
    s.res.time.isSome && s.res.voltage.isSome && s.res.current.isSome && s.res.r.isSome

/-! ## The binary64 model at known values -/

/-- Rounding to nearest: `0.1 + 0.2` is `0.30000000000000004`, and `1 / 3` is rounded
down. -/
theorem binary64_rounds_to_nearest :
    (0.1 + 0.2 : Binary64) = Binary64.fin false 5404319552844596 (-54) ∧
      (1 / 3 : Binary64) = Binary64.fin false 6004799503160661 (-54) := by
  decide

/-- Ties go to the even significand: `2 ^ 53 + 1` rounds down to `2 ^ 53`, `2 ^ 53 + 3`
up to `2 ^ 53 + 4`, and half the smallest subnormal value `2 ^ (-1074)` rounds to `0`. -/
theorem binary64_ties_to_even :
    ((9007199254740993 : ℕ) : Binary64) = ((9007199254740992 : ℕ) : Binary64) ∧
      ((9007199254740995 : ℕ) : Binary64) = ((9007199254740996 : ℕ) : Binary64) ∧
      (Binary64.fin false 1 (-1074) / 2 : Binary64) = Binary64.fin false 0 (-1074) := by
  decide

/-- Overflow, division by zero and the invalid operations: `1e200 * 1e200`, `1 / 0` and
`1 / 2 ^ (-1074)` are `+inf`, `-1 / 0` is `-inf`, `0 / 0` and `inf - inf` are NaN, and
`-1 * 0` is `-0`. -/
theorem binary64_special_values :
    (1e200 * 1e200 : Binary64) = Binary64.inf false ∧
      (1 / 0 : Binary64) = Binary64.inf false ∧
      (1 / Binary64.fin false 1 (-1074) : Binary64) = Binary64.inf false ∧
      (-1 / 0 : Binary64) = Binary64.inf true ∧
      (0 / 0 : Binary64) = Binary64.nan ∧
      (1 / 0 - 1 / 0 : Binary64) = Binary64.nan ∧
      (-1 * 0 : Binary64) = Binary64.fin true 0 (-1074) := by
  decide

/-! ## Single calls -/

/-- C1, amended: on a capacitor whose voltage slot holds `V` and whose capacitance slot
holds `C`, `updateVoltage I deltaT` stores `V + I * deltaT * (1 / C)` as the arithmetic of
the scalar type evaluates it, binary64 included; in exact rational arithmetic with `C ≠ 0`
the stored voltage is `V + I * deltaT / C`. -/
theorem C1_updateVoltage_stored_value :
    (∀ (α : Type) [Add α] [Mul α] [Div α] [One α] (self : Capacator α) (V C I deltaT : α),
        self.voltage = some V → self.C = some C →
        (self.updateVoltage I deltaT).1.voltage = some (V + I * deltaT * (1 / C))) ∧
      (∀ (self : Capacator ℚ) (V C I deltaT : ℚ),
        self.voltage = some V → self.C = some C → C ≠ 0 →
        (self.updateVoltage I deltaT).1.voltage = some (V + I * deltaT / C)) := by
  refine ⟨?_, ?_⟩
  · intro α _ _ _ _ self V C I deltaT hV hC
    simp only [Capacator.updateVoltage, hV, hC]
  · intro self V C I deltaT hV hC _
    simp only [Capacator.updateVoltage, hV, hC, mul_one_div]

/-- Witness of C1, amended: the first part in binary64 at `V = 0`, `C = 10`, `I = 3`,
`deltaT = 1`, the second at the capacitor of the driver with `I = 3` and `deltaT = 1`. -/
theorem C1_updateVoltage_stored_value_witness :
    (Capacator.updateVoltage
        ({ time := some 0, voltage := some 0, current := some 3, C := some 10 } :
          Capacator Binary64) 3 1).1.voltage = some (0 + 3 * 1 * (1 / 10)) ∧
      ((init ℚ).cap.updateVoltage 3 1).1.voltage = some (0 + 3 * 1 / (1 / 10 ^ 10)) :=
  ⟨C1_updateVoltage_stored_value.1 Binary64 _ 0 10 3 1 rfl rfl,
    C1_updateVoltage_stored_value.2 (init ℚ).cap 0 (1 / 10 ^ 10) 3 1
      (by norm_num [init]) (by norm_num [init]) (by norm_num)⟩

/-- C1 as the specification states it fails in binary64: with `V = 0`, `C = 10`, `I = 3`,
`deltaT = 1` the stored voltage is `0.30000000000000004` (`5404319552844596 * 2 ^ (-54)`),
which is neither the binary64 value of `V + I * deltaT / C` (`0.3`, significand
`5404319552844595`) nor the rational number `3 / 10`. -/
theorem C1_binary64_counterexample :
    (Capacator.updateVoltage
        ({ time := some 0, voltage := some 0, current := some 3, C := some 10 } :
          Capacator Binary64) 3 1).1.voltage = some (Binary64.fin false 5404319552844596 (-54)) ∧
      ((0 : Binary64) + 3 * 1 / 10) = Binary64.fin false 5404319552844595 (-54) ∧
      (Capacator.updateVoltage
        ({ time := some 0, voltage := some 0, current := some 3, C := some 10 } :
          Capacator Binary64) 3 1).1.voltage ≠ some (0 + 3 * 1 / 10) ∧
      (Binary64.fin false 5404319552844596 (-54)).toRat ≠ some (0 + 3 * 1 / 10) := by
  refine ⟨by decide, by decide, by decide, ?_⟩
  norm_num [Binary64.toRat]

/-- C2: on a resistor whose current slot holds `I` and whose resistance slot holds `r`,
`updateCurrent deltaT C` stores the current `I - (I / (r * C)) * deltaT`, with `r` read from
the resistor and `C` the argument; this holds for every arithmetic on the scalar type. -/
theorem C2_updateCurrent_decay_step {α : Type} [Sub α] [Mul α] [Div α]
    (self : Resister α) (I r deltaT C : α)
    (hI : self.current = some I) (hr : self.r = some r) :
    (self.updateCurrent deltaT C).1.current = some (I - (I / (r * C)) * deltaT) := by
  simp [Resister.updateCurrent, hI, hr]

/-- Witness of C2 at the resistor of the driver, with `deltaT = 1 / 2` and `C = 1 / 4`. -/
theorem C2_updateCurrent_decay_step_witness :
    ((init ℚ).res.updateCurrent (1 / 2) (1 / 4)).1.current
      = some ((1 / 100 : ℚ) - ((1 / 100) / (1000 * (1 / 4))) * (1 / 2)) :=
  C2_updateCurrent_decay_step (init ℚ).res (1 / 100) 1000 (1 / 2) (1 / 4)
    (by norm_num [init]) (by norm_num [init])

/-- C3: on a capacitor whose voltage slot or capacitance slot is null, `updateVoltage`
writes its error line to `std::cerr` and returns the capacitor it was given, every slot
(null or not) as before. -/
theorem C3_updateVoltage_missing_state {α : Type} [Add α] [Mul α] [Div α] [One α]
    (self : Capacator α) (I deltaT : α) (h : self.voltage = none ∨ self.C = none) :
    self.updateVoltage I deltaT = (self, [Capacator.errorMessage]) := by
  unfold Capacator.updateVoltage
  rcases h with h | h
  · rw [h]
  · rw [h]
    cases self.voltage <;> rfl

/-- Witness of C3: a capacitor with a voltage and no capacitance. -/
theorem C3_updateVoltage_missing_state_witness :
    Capacator.updateVoltage
        ({ time := some 0, voltage := some 5, current := none, C := none } : Capacator ℚ) 2 3
      = ({ time := some 0, voltage := some 5, current := none, C := none },
         [Capacator.errorMessage]) :=
  C3_updateVoltage_missing_state _ 2 3 (Or.inr rfl)

/-- C4: on a resistor whose current slot or resistance slot is null, `updateCurrent` writes
its error line to `std::cerr` and returns the resistor it was given; and whenever it writes
anything to `std::cerr`, the current slot or the resistance slot is null. -/
theorem C4_updateCurrent_missing_state {α : Type} [Sub α] [Mul α] [Div α]
    (self : Resister α) (deltaT C : α) :
    ((self.current = none ∨ self.r = none) →
        self.updateCurrent deltaT C = (self, [Resister.errorMessage])) ∧
      ((self.updateCurrent deltaT C).2 ≠ [] → (self.current = none ∨ self.r = none)) := by
  unfold Resister.updateCurrent
  cases hc : self.current <;> cases hr : self.r <;> simp

/-- For every arithmetic, `calculateDerivative` returns the expression of its body. -/
theorem calculateDerivative_eq {α : Type} [Sub α] [Div α] (V1 V2 t1 t2 : α) :
    calculateDerivative V1 V2 t1 t2 = (V2 - V1) / (t2 - t1) := rfl

/-- C6: for `t1 ≠ t2`, `calculateDerivative V1 V2 t1 t2` is `(V2 - V1) / (t2 - t1)`, the
slope that carries `V1` to `V2` over `t2 - t1` (exact rational arithmetic). -/
theorem C6_calculateDerivative_quotient (V1 V2 t1 t2 : ℚ) (h : t1 ≠ t2) :
    calculateDerivative V1 V2 t1 t2 = (V2 - V1) / (t2 - t1) ∧
      calculateDerivative V1 V2 t1 t2 * (t2 - t1) = V2 - V1 := by
  have h' : t2 - t1 ≠ 0 := sub_ne_zero.mpr (Ne.symm h)
  refine ⟨rfl, ?_⟩
  rw [calculateDerivative_eq]
  field_simp

/-- Witness of C6: the slope from `(1, 2)` to `(3, 8)` is `3`. -/
theorem C6_calculateDerivative_quotient_witness :
    calculateDerivative (2 : ℚ) 8 1 3 = (8 - 2) / (3 - 1) ∧
      calculateDerivative (2 : ℚ) 8 1 3 * (3 - 1) = 8 - 2 :=
  C6_calculateDerivative_quotient 2 8 1 3 (by norm_num)

/-- C7: on a capacitor whose capacitance slot holds `C`, `calculateCurrent dVdt` returns
`C * dVdt` and leaves the capacitor as it was; this holds for every arithmetic on the
scalar type. -/
theorem C7_calculateCurrent {α : Type} [Mul α] (self : Capacator α) (C dVdt : α)
    (hC : self.C = some C) :
    self.calculateCurrent dVdt = (some (C * dVdt), self) := by
  simp [Capacator.calculateCurrent, hC]

/-- Witness of C7 at the capacitor of the driver, with `dVdt = 7`. -/
theorem C7_calculateCurrent_witness :
    (init ℚ).cap.calculateCurrent 7 = (some ((1 / 10 ^ 10 : ℚ) * 7), (init ℚ).cap) :=
  C7_calculateCurrent (init ℚ).cap (1 / 10 ^ 10) 7 (by norm_num [init])

/-! ## Frame of the updates, setters and getters -/

/-- Frame of `updateVoltage`: the slots `time`, `current` and `C` are as before. -/
theorem updateVoltage_frame {α : Type} [Add α] [Mul α] [Div α] [One α]
    (self : Capacator α) (I deltaT : α) :
    (self.updateVoltage I deltaT).1.time = self.time ∧
      (self.updateVoltage I deltaT).1.current = self.current ∧
      (self.updateVoltage I deltaT).1.C = self.C := by
  obtain ⟨⟨t, v, c⟩, C⟩ := self
  cases v <;> cases C <;> exact ⟨rfl, rfl, rfl⟩

/-- Frame of `updateCurrent`: the slots `time`, `voltage` and `r` are as before. -/
theorem updateCurrent_frame {α : Type} [Sub α] [Mul α] [Div α]
    (self : Resister α) (deltaT C : α) :
    (self.updateCurrent deltaT C).1.time = self.time ∧
      (self.updateCurrent deltaT C).1.voltage = self.voltage ∧
      (self.updateCurrent deltaT C).1.r = self.r := by
  obtain ⟨⟨t, v, c⟩, r⟩ := self
  cases c <;> cases r <;> exact ⟨rfl, rfl, rfl⟩

/-- C11: for every capacitor and every `I`, `deltaT`, `updateVoltage` leaves `time`,
`current` and `C` as they were; for every resistor and every `deltaT`, `C`,
`updateCurrent` leaves `time`, `voltage` and `r` as they were (any arithmetic, slots null
or not, success branch or error branch). -/
theorem C11_update_frame {α : Type} [Add α] [Sub α] [Mul α] [Div α] [One α]
    (cap : Capacator α) (res : Resister α) (I deltaT C : α) :
    ((cap.updateVoltage I deltaT).1.time = cap.time ∧
        (cap.updateVoltage I deltaT).1.current = cap.current ∧
        (cap.updateVoltage I deltaT).1.C = cap.C) ∧
      ((res.updateCurrent deltaT C).1.time = res.time ∧
        (res.updateCurrent deltaT C).1.voltage = res.voltage ∧
        (res.updateCurrent deltaT C).1.r = res.r) :=
  ⟨updateVoltage_frame cap I deltaT, updateCurrent_frame res deltaT C⟩

/-- C12: each setter called with `v` makes the matching getter return `v` and leaves every
other slot as it was, on the base class and on both derived classes, whatever the slot held
before; `v` ranges over the pointers a setter can receive, a null one included. -/
theorem C12_setters_getters {α : Type} (c : Component α) (cap : Capacator α)
    (res : Resister α) (v : Option α) :
    ((c.setTime v).getTime = v ∧ (c.setTime v).voltage = c.voltage ∧
        (c.setTime v).current = c.current) ∧
      ((c.setVoltage v).getVoltage = v ∧ (c.setVoltage v).time = c.time ∧
        (c.setVoltage v).current = c.current) ∧
      ((c.setCurrent v).getCurrent = v ∧ (c.setCurrent v).time = c.time ∧
        (c.setCurrent v).voltage = c.voltage) ∧
      ((cap.setTime v).getTime = v ∧ (cap.setTime v).voltage = cap.voltage ∧
        (cap.setTime v).current = cap.current ∧ (cap.setTime v).C = cap.C) ∧
      ((cap.setVoltage v).getVoltage = v ∧ (cap.setVoltage v).time = cap.time ∧
        (cap.setVoltage v).current = cap.current ∧ (cap.setVoltage v).C = cap.C) ∧
      ((cap.setCurrent v).getCurrent = v ∧ (cap.setCurrent v).time = cap.time ∧
        (cap.setCurrent v).voltage = cap.voltage ∧ (cap.setCurrent v).C = cap.C) ∧
      ((cap.setC v).getC = v ∧ (cap.setC v).time = cap.time ∧
        (cap.setC v).voltage = cap.voltage ∧ (cap.setC v).current = cap.current) ∧
      ((res.setTime v).getTime = v ∧ (res.setTime v).voltage = res.voltage ∧
        (res.setTime v).current = res.current ∧ (res.setTime v).r = res.r) ∧
      ((res.setVoltage v).getVoltage = v ∧ (res.setVoltage v).time = res.time ∧
        (res.setVoltage v).current = res.current ∧ (res.setVoltage v).r = res.r) ∧
      ((res.setCurrent v).getCurrent = v ∧ (res.setCurrent v).time = res.time ∧
        (res.setCurrent v).voltage = res.voltage ∧ (res.setCurrent v).r = res.r) ∧
      ((res.setR v).getR = v ∧ (res.setR v).time = res.time ∧
        (res.setR v).voltage = res.voltage ∧ (res.setR v).current = res.current) := by
  refine ⟨⟨rfl, rfl, rfl⟩, ⟨rfl, rfl, rfl⟩, ⟨rfl, rfl, rfl⟩, ⟨rfl, rfl, rfl, rfl⟩,
    ⟨rfl, rfl, rfl, rfl⟩, ⟨rfl, rfl, rfl, rfl⟩, ⟨rfl, rfl, rfl, rfl⟩, ⟨rfl, rfl, rfl, rfl⟩,
    ⟨rfl, rfl, rfl, rfl⟩, ⟨rfl, rfl, rfl, rfl⟩, ⟨rfl, rfl, rfl, rfl⟩⟩

/-- C13, amended: `updateVoltage` does not check the range of the capacitance: on a
capacitor whose slots hold a voltage `V` and any capacitance `C`, it writes nothing to
`std::cerr` and stores `V + I * deltaT * (1 / C)`, in every arithmetic, binary64 included;
in exact rational arithmetic, with `I * deltaT > 0`, the stored voltage is below `V` when
`C < 0` and above `V` when `C > 0`. -/
theorem C13_no_range_check :
    (∀ (α : Type) [Add α] [Mul α] [Div α] [One α] (self : Capacator α) (V C I deltaT : α),
        self.voltage = some V → self.C = some C →
        self.updateVoltage I deltaT
          = ({ self with voltage := some (V + I * deltaT * (1 / C)) }, [])) ∧
      (∀ (self : Capacator ℚ) (V C I deltaT : ℚ),
        self.voltage = some V → self.C = some C → 0 < I * deltaT →
        (self.updateVoltage I deltaT).2 = [] ∧
          ∃ V', (self.updateVoltage I deltaT).1.voltage = some V' ∧
            (C < 0 → V' < V) ∧ (0 < C → V < V')) := by
  refine ⟨?_, ?_⟩
  · intro α _ _ _ _ self V C I deltaT hV hC
    simp only [Capacator.updateVoltage, hV, hC]
  · intro self V C I deltaT hV hC hpos
    refine ⟨by simp only [Capacator.updateVoltage, hV, hC],
      V + I * deltaT * (1 / C), by simp only [Capacator.updateVoltage, hV, hC], ?_, ?_⟩
    · intro hneg
      have h : I * deltaT * (1 / C) < 0 :=
        mul_neg_of_pos_of_neg hpos (one_div_neg.mpr hneg)
      linarith
    · intro hC0
      have h : 0 < I * deltaT * (1 / C) := mul_pos hpos (one_div_pos.mpr hC0)
      linarith

/-- Witness of C13, amended: the first part in binary64 at `V = 1e20`, `C = -1`,
`I = deltaT = 1`; the second at capacitance `-2`, voltage `5`, `I = 3`, `deltaT = 4`, where
the new voltage is `5 + 3 * 4 * (1 / -2) = -1`. -/
theorem C13_no_range_check_witness :
    (Capacator.updateVoltage
        ({ time := some 0, voltage := some 1e20, current := some 0, C := some (-1) } :
          Capacator Binary64) 1 1
        = ({ time := some 0, voltage := some (1e20 + 1 * 1 * (1 / (-1))), current := some 0,
             C := some (-1) }, [])) ∧
      ((Capacator.updateVoltage
          ({ time := some 0, voltage := some 5, current := some 3, C := some (-2) } :
            Capacator ℚ) 3 4).2 = [] ∧
        ∃ V', (Capacator.updateVoltage
            ({ time := some 0, voltage := some 5, current := some 3, C := some (-2) } :
              Capacator ℚ) 3 4).1.voltage = some V' ∧
          ((-2 : ℚ) < 0 → V' < 5) ∧ ((0 : ℚ) < -2 → 5 < V')) :=
  ⟨C13_no_range_check.1 Binary64 _ 1e20 (-1) 1 1 rfl rfl,
    C13_no_range_check.2 _ 5 (-2) 3 4 rfl rfl (by norm_num)⟩

/-- C13 as the specification states it fails in binary64: with `V = 1e20` and
`I = deltaT = 1` (so `I * deltaT > 0`) the increment is absorbed by the rounding of the sum,
and the stored voltage is `V` itself, for `C = -1` (not strictly less) and for `C = 1` (not
strictly greater). -/
theorem C13_binary64_counterexample :
    (0 : Binary64) < 1 * 1 ∧ (-1 : Binary64) < 0 ∧ (0 : Binary64) < 1 ∧
      (Capacator.updateVoltage
        ({ time := some 0, voltage := some 1e20, current := some 0, C := some (-1) } :
          Capacator Binary64) 1 1).1.voltage = some 1e20 ∧
      (Capacator.updateVoltage
        ({ time := some 0, voltage := some 1e20, current := some 0, C := some 1 } :
          Capacator Binary64) 1 1).1.voltage = some 1e20 ∧
      ¬ ((1e20 : Binary64) < 1e20) := by
  decide

/-! ## Repeated decay steps -/

/-- Repeated decay steps in any arithmetic: only the current slot moves, through the map
`I ↦ I - (I / (r * C)) * deltaT` applied `n` times. -/
theorem updateCurrentTimes_iterate {α : Type} [Sub α] [Mul α] [Div α]
    (self : Resister α) (I0 r deltaT C : α)
    (hI : self.current = some I0) (hr : self.r = some r) (n : ℕ) :
    self.updateCurrentTimes deltaT C n
      = { self with current := some ((fun I => I - (I / (r * C)) * deltaT)^[n] I0) } := by
  induction n with
  | zero =>
    obtain ⟨⟨t, v, c⟩, r'⟩ := self
    simp only at hI
    simp [Resister.updateCurrentTimes, hI]
  | succ n ih =>
    unfold Resister.updateCurrentTimes at ih ⊢
    rw [Function.iterate_succ_apply', ih, Function.iterate_succ_apply']
    simp only [Resister.updateCurrent, hr]

/-- Closed form of `n` decay steps: only the current slot moves, to
`I0 * (1 - deltaT / (r * C)) ^ n`. -/
theorem updateCurrentTimes_eq (self : Resister ℚ) (I0 r deltaT C : ℚ)
    (hI : self.current = some I0) (hr : self.r = some r) (n : ℕ) :
    self.updateCurrentTimes deltaT C n
      = { self with current := some (I0 * (1 - deltaT / (r * C)) ^ n) } := by
  induction n with
  | zero =>
    obtain ⟨⟨t, v, c⟩, r'⟩ := self
    simp only at hI
    simp [Resister.updateCurrentTimes, hI]
  | succ n ih =>
    unfold Resister.updateCurrentTimes at ih ⊢
    rw [Function.iterate_succ_apply', ih]
    simp only [Resister.updateCurrent, hr]
    congr 2
    rw [pow_succ]
    exact congrArg some (by ring)

/-- Monotone decay in exact rational arithmetic: for `r > 0`, `C > 0` and
`0 < deltaT < r * C`, the currents `I 0, I 1, ...` stored after `0, 1, ...` successive calls
`updateCurrent(deltaT, C)` start at `I0`, all have the sign of `I0`, never grow in absolute
value, shrink strictly when `I0 ≠ 0`, and tend to `0`. -/
theorem monotone_decay_exact (self : Resister ℚ) (I0 r C deltaT : ℚ)
    (hI : self.current = some I0) (hr : self.r = some r)
    (hr0 : 0 < r) (hC0 : 0 < C) (hd0 : 0 < deltaT) (hd : deltaT < r * C) :
    ∃ I : ℕ → ℚ, (∀ n, (self.updateCurrentTimes deltaT C n).current = some (I n)) ∧
      I 0 = I0 ∧
      (∀ n, SignType.sign (I n) = SignType.sign I0) ∧
      (∀ n, |I (n + 1)| ≤ |I n|) ∧
      (I0 ≠ 0 → ∀ n, |I (n + 1)| < |I n|) ∧
      Filter.Tendsto I Filter.atTop (nhds 0) := by
  have hrC : 0 < r * C := mul_pos hr0 hC0
  have hq0 : 0 < 1 - deltaT / (r * C) := by
    rw [sub_pos, div_lt_one hrC]
    exact hd
  have hq1 : 1 - deltaT / (r * C) < 1 := by
    have : 0 < deltaT / (r * C) := div_pos hd0 hrC
    linarith
  have hpow : ∀ n : ℕ, 0 < (1 - deltaT / (r * C)) ^ n := fun n => pow_pos hq0 n
  have habs : ∀ n : ℕ, |I0 * (1 - deltaT / (r * C)) ^ (n + 1)|
      = |I0 * (1 - deltaT / (r * C)) ^ n| * (1 - deltaT / (r * C)) := by
    intro n
    rw [pow_succ, ← mul_assoc, abs_mul _ (1 - deltaT / (r * C)), abs_of_pos hq0]
  refine ⟨fun n => I0 * (1 - deltaT / (r * C)) ^ n, ?_, ?_, ?_, ?_, ?_, ?_⟩
  · intro n
    rw [updateCurrentTimes_eq self I0 r deltaT C hI hr n]
  · simp
  · intro n
    simp only [sign_mul, sign_pos (hpow n), mul_one]
  · intro n
    simp only [habs n]
    exact mul_le_of_le_one_right (abs_nonneg _) hq1.le
  · intro hI0 n
    simp only [habs n]
    have hpos : 0 < |I0 * (1 - deltaT / (r * C)) ^ n| :=
      abs_pos.mpr (mul_ne_zero hI0 (hpow n).ne')
    exact mul_lt_of_lt_one_right hpos hq1
  · have h := (tendsto_pow_atTop_nhds_zero_of_lt_one hq0.le hq1).const_mul I0
    simpa using h

/-- C5, amended: the currents stored after `0, 1, 2, ...` successive calls
`updateCurrent(deltaT, C)` are the iterates of `I ↦ I - (I / (r * C)) * deltaT` from `I0`,
in every arithmetic, binary64 included; in exact rational arithmetic, for `r > 0`, `C > 0`
and `0 < deltaT < r * C`, they all have the sign of `I0`, never grow in absolute value,
shrink strictly when `I0 ≠ 0`, and tend to `0`. -/
theorem C5_decay_sequence :
    (∀ (α : Type) [Sub α] [Mul α] [Div α] (self : Resister α) (I0 r C deltaT : α),
        self.current = some I0 → self.r = some r →
        ∀ n, (self.updateCurrentTimes deltaT C n).current
          = some ((fun I => I - (I / (r * C)) * deltaT)^[n] I0)) ∧
      (∀ (self : Resister ℚ) (I0 r C deltaT : ℚ),
        self.current = some I0 → self.r = some r →
        0 < r → 0 < C → 0 < deltaT → deltaT < r * C →
        ∃ I : ℕ → ℚ, (∀ n, (self.updateCurrentTimes deltaT C n).current = some (I n)) ∧
          I 0 = I0 ∧
          (∀ n, SignType.sign (I n) = SignType.sign I0) ∧
          (∀ n, |I (n + 1)| ≤ |I n|) ∧
          (I0 ≠ 0 → ∀ n, |I (n + 1)| < |I n|) ∧
          Filter.Tendsto I Filter.atTop (nhds 0)) := by
  refine ⟨?_, ?_⟩
  · intro α _ _ _ self I0 r C deltaT hI hr n
    rw [updateCurrentTimes_iterate self I0 r deltaT C hI hr n]
  · intro self I0 r C deltaT hI hr hr0 hC0 hd0 hd
    exact monotone_decay_exact self I0 r C deltaT hI hr hr0 hC0 hd0 hd

/-- Witness of C5, amended: the first part in binary64 at `I0 = r = C = 1` and
`deltaT = 0.3` after two calls, the second at the resistor of the driver with the
capacitance and the step of the driver (`deltaT = 1e-10 < r * C = 1e-7`). -/
theorem C5_decay_sequence_witness :
    ((Resister.updateCurrentTimes
        ({ time := some 0, voltage := some 0, current := some 1, r := some 1 } :
          Resister Binary64) 0.3 1 2).current
        = some ((fun I : Binary64 => I - (I / (1 * 1)) * 0.3)^[2] 1)) ∧
      ∃ I : ℕ → ℚ,
        (∀ n, ((init ℚ).res.updateCurrentTimes (1 / 10 ^ 10) (1 / 10 ^ 10) n).current
          = some (I n)) ∧
        I 0 = 1 / 100 ∧
        (∀ n, SignType.sign (I n) = SignType.sign (1 / 100 : ℚ)) ∧
        (∀ n, |I (n + 1)| ≤ |I n|) ∧
        ((1 / 100 : ℚ) ≠ 0 → ∀ n, |I (n + 1)| < |I n|) ∧
        Filter.Tendsto I Filter.atTop (nhds 0) :=
  ⟨C5_decay_sequence.1 Binary64 _ 1 1 1 0.3 rfl rfl 2,
    C5_decay_sequence.2 (init ℚ).res (1 / 100) 1000 (1 / 10 ^ 10) (1 / 10 ^ 10)
      (by norm_num [init]) (by norm_num [init]) (by norm_num) (by norm_num) (by norm_num)
      (by norm_num)⟩

/-- One decay step in binary64 with `I = r = C = 1` and `deltaT = 1e-20` returns the
resistor it was given: `1 - 1e-20` rounds to `1`. -/
theorem updateCurrent_binary64_fixed :
    (Resister.updateCurrent
        ({ time := some 0, voltage := some 0, current := some 1, r := some 1 } :
          Resister Binary64) 1e-20 1).1
      = ({ time := some 0, voltage := some 0, current := some 1, r := some 1 } :
          Resister Binary64) := by
  decide

/-- C5 as the specification states it fails in binary64.  With `r = C = 1`,
`deltaT = 1e-20` (so `0 < deltaT < r * C`) and `I0 = 1` the current is `1` after every
number of calls, so no sequence of its values is strictly decreasing in absolute value or
tends to `0`.  With `r = C = 1e-100`, `deltaT = 1e-201 < r * C` and `I0 = 1e200` the quotient
`I0 / (r * C)` overflows and the first call stores `-inf`: the sign and the bound
`|I_1| ≤ |I_0|` are lost as well. -/
theorem C5_binary64_counterexample :
    ((0 : Binary64) < 1 ∧ (0 : Binary64) < 1e-20 ∧ (1e-20 : Binary64) < 1 * 1) ∧
      (∀ n, (Resister.updateCurrentTimes
        ({ time := some 0, voltage := some 0, current := some 1, r := some 1 } :
          Resister Binary64) 1e-20 1 n).current = some 1) ∧
      (¬ ∃ I : ℕ → ℚ,
        (∀ n, (Resister.updateCurrentTimes
          ({ time := some 0, voltage := some 0, current := some 1, r := some 1 } :
          Resister Binary64) 1e-20 1 n).current.bind Binary64.toRat = some (I n)) ∧
        I 0 = 1 ∧
        (∀ n, SignType.sign (I n) = SignType.sign (1 : ℚ)) ∧
        (∀ n, |I (n + 1)| ≤ |I n|) ∧
        ((1 : ℚ) ≠ 0 → ∀ n, |I (n + 1)| < |I n|) ∧
        Filter.Tendsto I Filter.atTop (nhds 0)) ∧
      ((0 : Binary64) < 1e-100 ∧ (0 : Binary64) < 1e-201 ∧
        (1e-201 : Binary64) < 1e-100 * 1e-100 ∧ (0 : Binary64) < 1e200) ∧
      (Resister.updateCurrentTimes
        ({ time := some 0, voltage := some 0, current := some 1e200, r := some 1e-100 } :
          Resister Binary64) 1e-201 1e-100 1).current = some (Binary64.inf true) := by
  have hfix : ∀ n, Resister.updateCurrentTimes
      ({ time := some 0, voltage := some 0, current := some 1, r := some 1 } :
          Resister Binary64) 1e-20 1 n
      = ({ time := some 0, voltage := some 0, current := some 1, r := some 1 } :
          Resister Binary64) := by
    intro n
    exact Function.iterate_fixed updateCurrent_binary64_fixed n
  have hone : (1 : Binary64).toRat = some 1 := by
    have h : (1 : Binary64) = Binary64.fin false 4503599627370496 (-52) := by decide
    rw [h]
    norm_num [Binary64.toRat]
  refine ⟨by decide, fun n => by rw [hfix n], ?_, by decide, by decide⟩
  rintro ⟨I, hI, -, -, -, hstrict, -⟩
  have h0 : I 0 = 1 := by
    have h := hI 0
    rw [hfix 0] at h
    exact (Option.some.inj (hone.symm.trans h)).symm
  have h1 : I 1 = 1 := by
    have h := hI 1
    rw [hfix 1] at h
    exact (Option.some.inj (hone.symm.trans h)).symm
  have h := hstrict one_ne_zero 0
  rw [zero_add, h0, h1] at h
  exact lt_irrefl _ h

/-! ## The driver -/

/-- The quotient `finalTime / deltaT` of the driver is the integer `50000`. -/
theorem finalTime_div_deltaT : finalTime ℚ / deltaT ℚ = 50000 := by
  norm_num [finalTime, deltaT]

/-- The conversion `toInt` is truncation toward zero: the floor of a non-negative value,
the ceiling of a negative one. -/
theorem toInt_truncates (x : ℚ) (t : Int) (h : toInt x = some t) :
    t = if 0 ≤ x then ⌊x⌋ else ⌈x⌉ := by
  unfold toInt at h
  simp only at h
  split at h
  · simp only [Option.some.injEq] at h
    rw [← h]
    split
    · next hx =>
      rw [Int.tdiv_eq_ediv (Rat.num_nonneg.mpr hx) (Int.natCast_nonneg _)]
      exact (Rat.floor_def' x).symm
    · next hx =>
      have hneg : 0 ≤ (-x).num := Rat.num_nonneg.mpr (by linarith)
      have h1 : x.num = -(-x).num := by simp
      have h2 : (x.den : Int) = ((-x).den : Int) := by simp
      have h3 : ⌈x⌉ = -⌊-x⌋ := by rw [Int.floor_neg, neg_neg]
      rw [h1, Int.neg_tdiv, h2, Int.tdiv_eq_ediv hneg (Int.natCast_nonneg _), h3]
      exact congrArg Neg.neg (Rat.floor_def' (-x)).symm
  · exact absurd h (by simp)

/-- The driver computes `numTimeSteps = 50000`. -/
theorem numTimeSteps_eq : numTimeSteps ℚ = some 50000 := by
  unfold numTimeSteps
  rw [finalTime_div_deltaT]
  decide

/-- In binary64 too the quotient of the two literals is exactly `50000`, and so is the step
count. -/
theorem numTimeSteps_binary64 :
    finalTime Binary64 / deltaT Binary64 = 50000 ∧ numTimeSteps Binary64 = some 50000 := by
  decide

/-- The state of the driver after the first iteration of its loop. -/
theorem forLoop_one_init : forLoop (deltaT ℚ) 0 1 (init ℚ) = some
    { cap := { time := some 0, voltage := some (1 / 100), current := some (1 / 100),
               C := some (1 / 10 ^ 10) }
      res := { time := some 0, voltage := some 0, current := some (999 / 100000),
               r := some 1000 }
      cout := [{ time := 0, voltage := 1 / 100, current := 999 / 100000 }]
      cerr := []
      calls := [Call.updateVoltage, Call.updateCurrent] } := by
  simp [forLoop, loopBody, init, deltaT, Component.getCurrent, Capacator.updateVoltage,
    Capacator.getC, Resister.updateCurrent, Component.getVoltage]
  norm_num

/-- The first iteration in binary64: the capacitor voltage is the binary64 value of `0.01`
and the resistor current that of `0.00999`, the roundings of the exact results. -/
theorem forLoop_one_init_binary64 :
    (forLoop (deltaT Binary64) 0 1 (init Binary64)).map (fun s => (s.cap.voltage, s.res.current))
      = some (some 0.01, some 0.00999) := by
  decide

/-- One iteration on a fully initialised state: it is defined, keeps every slot
initialised, makes the two calls in order and writes nothing to `std::cerr`. -/
theorem loopBody_initialised {α : Type} [Add α] [Sub α] [Mul α] [Div α] [One α] [NatCast α]
    (deltaT : α) (i : ℕ) (s : Sim α) (h : s.initialised = true) :
    ∃ s', loopBody deltaT i s = some s' ∧ s'.initialised = true ∧
      s'.calls = s.calls ++ [Call.updateVoltage, Call.updateCurrent] ∧ s'.cerr = s.cerr := by
  obtain ⟨⟨⟨t, v, c⟩, C⟩, ⟨⟨t', v', c'⟩, r⟩, out, err, calls⟩ := s
  simp only [Sim.initialised, Bool.and_eq_true, Option.isSome_iff_exists] at h
  obtain ⟨⟨⟨⟨⟨⟨⟨⟨t, rfl⟩, ⟨v, rfl⟩⟩, ⟨c, rfl⟩⟩, ⟨C, rfl⟩⟩, ⟨t', rfl⟩⟩, ⟨v', rfl⟩⟩, ⟨c', rfl⟩⟩,
    ⟨r, rfl⟩⟩ := h
  by_cases hi : i % 200 = 0 <;>
    simp [loopBody, hi, Sim.initialised, Component.getCurrent, Capacator.updateVoltage,
      Capacator.getC, Resister.updateCurrent, Component.getVoltage]

/-- The loop on a fully initialised state runs all its `k` iterations: `2 * k` calls,
alternating `updateVoltage`, `updateCurrent`, and nothing on `std::cerr`. -/
theorem forLoop_initialised {α : Type} [Add α] [Sub α] [Mul α] [Div α] [One α] [NatCast α]
    (deltaT : α) (k i : ℕ) (s : Sim α) (h : s.initialised = true) :
    ∃ s', forLoop deltaT i k s = some s' ∧ s'.initialised = true ∧
      s'.calls = s.calls ++ (List.replicate k [Call.updateVoltage, Call.updateCurrent]).flatten ∧
      s'.cerr = s.cerr := by
  induction k generalizing i s with
  | zero => exact ⟨s, rfl, h, by simp, rfl⟩
  | succ k ih =>
    obtain ⟨s₁, h₁, hinit, hcalls, hcerr⟩ := loopBody_initialised deltaT i s h
    obtain ⟨s₂, h₂, hinit₂, hcalls₂, hcerr₂⟩ := ih (i + 1) s₁ hinit
    refine ⟨s₂, ?_, hinit₂, ?_, hcerr₂.trans hcerr⟩
    · simp only [forLoop, h₁, h₂]
    · rw [hcalls₂, hcalls, List.replicate_succ, List.flatten_cons, List.append_assoc]

/-- C8: from the initial values of the driver (`V0 = 0`, `I0 = 1e-2`, `C = 100e-12`,
`r = 1e3`, `deltaT = 1e-10`), one iteration of the loop leaves the capacitor voltage
`1e-2 * 1e-10 / 100e-12 = 0.01`. -/
theorem C8_first_step_voltage :
    ∃ s, forLoop (deltaT ℚ) 0 1 (init ℚ) = some s ∧ s.cap.getVoltage = some 0.01 ∧
      (1e-2 * 1e-10 / 100e-12 : ℚ) = 0.01 := by
  refine ⟨_, forLoop_one_init, ?_, by norm_num⟩
  simp only [Component.getVoltage]
  norm_num

/-- C9, as the specification states it, fails: after one iteration of the loop the
resistor current is not `0`. -/
theorem C9_first_step_current_ne_zero :
    ¬ ∃ s, forLoop (deltaT ℚ) 0 1 (init ℚ) = some s ∧ s.res.getCurrent = some 0 := by
  rintro ⟨s, hs, h0⟩
  rw [forLoop_one_init, Option.some.injEq] at hs
  subst hs
  simp only [Component.getCurrent, Option.some.injEq] at h0
  norm_num at h0

/-- C9, amended: from the initial values of the driver, one iteration of the loop leaves
the resistor current `1e-2 - (1e-2 / (1e3 * 100e-12)) * 1e-10 = 1e-2 - 1e-5 = 0.00999`. -/
theorem C9_first_step_current :
    ∃ s, forLoop (deltaT ℚ) 0 1 (init ℚ) = some s ∧ s.res.getCurrent = some 0.00999 ∧
      (1e-2 - (1e-2 / (1e3 * 100e-12)) * 1e-10 : ℚ) = 1e-2 - 1e-5 ∧
      (1e-2 - 1e-5 : ℚ) = 0.00999 := by
  refine ⟨_, forLoop_one_init, ?_, by norm_num, by norm_num⟩
  simp only [Component.getCurrent]
  norm_num

/-- Frame of repeated decay steps: `time`, `voltage` and `r` are as before. -/
theorem updateCurrentTimes_frame {α : Type} [Sub α] [Mul α] [Div α]
    (self : Resister α) (deltaT C : α) (n : ℕ) :
    (self.updateCurrentTimes deltaT C n).time = self.time ∧
      (self.updateCurrentTimes deltaT C n).voltage = self.voltage ∧
      (self.updateCurrentTimes deltaT C n).r = self.r := by
  induction n with
  | zero => exact ⟨rfl, rfl, rfl⟩
  | succ n ih =>
    unfold Resister.updateCurrentTimes at ih ⊢
    rw [Function.iterate_succ_apply']
    obtain ⟨h₁, h₂, h₃⟩ := updateCurrent_frame
      ((fun s => (Resister.updateCurrent s deltaT C).1)^[n] self) deltaT C
    exact ⟨h₁.trans ih.1, h₂.trans ih.2.1, h₃.trans ih.2.2⟩

/-- A decay step keeps the current slot occupied. -/
theorem updateCurrent_current_some {α : Type} [Sub α] [Mul α] [Div α]
    (self : Resister α) (deltaT C J : α) (hJ : self.current = some J) :
    ∃ J', (self.updateCurrent deltaT C).1.current = some J' := by
  obtain ⟨⟨t, v, c⟩, r⟩ := self
  simp only at hJ
  subst hJ
  cases r
  · exact ⟨J, rfl⟩
  · exact ⟨_, rfl⟩

/-- One iteration of the loop on a state whose capacitor holds a voltage, a current and a
capacitance and whose resistor holds a current, in any arithmetic: the capacitor takes one
Euler step with its own current, the resistor one decay step with the capacitance of the
capacitor, and a status line with the time `i * deltaT` is written when `i` is a multiple of
`200`. -/
theorem loopBody_step {α : Type} [Add α] [Sub α] [Mul α] [Div α] [One α] [NatCast α]
    (dt : α) (i : ℕ) (s : Sim α) (V I C J : α)
    (hV : s.cap.voltage = some V) (hI : s.cap.current = some I) (hC : s.cap.C = some C)
    (hJ : s.res.current = some J) :
    ∃ s', loopBody dt i s = some s' ∧
      s'.cap = { s.cap with voltage := some (V + I * dt * (1 / C)) } ∧
      s'.res = (s.res.updateCurrent dt C).1 ∧
      s'.calls = s.calls ++ [Call.updateVoltage, Call.updateCurrent] ∧
      s'.cout.map Sample.time
        = s.cout.map Sample.time ++ (if i % 200 = 0 then [(i : α) * dt] else []) := by
  obtain ⟨⟨⟨t, v, c⟩, C'⟩, ⟨⟨t', v', c'⟩, r⟩, out, err, calls⟩ := s
  simp only at hV hI hC hJ
  subst hV hI hC hJ
  cases r <;> by_cases hi : i % 200 = 0 <;>
    simp [loopBody, hi, Component.getCurrent, Capacator.updateVoltage, Capacator.getC,
      Resister.updateCurrent, Component.getVoltage]

/-- The loop, `k` iterations from index `i`, in any arithmetic: the capacitor voltage has
received `k` times the same increment `I * deltaT * (1 / C)`, the capacitor is otherwise as
before, the resistor has taken `k` decay steps, and the status lines carry the times
`j * deltaT` of the multiples `j` of `200` among the indices run. -/
theorem forLoop_steps {α : Type} [Add α] [Sub α] [Mul α] [Div α] [One α] [NatCast α]
    (dt : α) (k i : ℕ) (s : Sim α) (V I C J : α)
    (hV : s.cap.voltage = some V) (hI : s.cap.current = some I) (hC : s.cap.C = some C)
    (hJ : s.res.current = some J) :
    ∃ s', forLoop dt i k s = some s' ∧
      s'.cap = { s.cap with voltage := some ((fun v => v + I * dt * (1 / C))^[k] V) } ∧
      s'.res = s.res.updateCurrentTimes dt C k ∧
      s'.calls
        = s.calls ++ (List.replicate k [Call.updateVoltage, Call.updateCurrent]).flatten ∧
      s'.cout.map Sample.time = s.cout.map Sample.time ++
        ((List.range' i k).filter (fun j => j % 200 = 0)).map (fun j => (j : α) * dt) := by
  induction k generalizing i s V J with
  | zero =>
    refine ⟨s, rfl, ?_, rfl, by simp, by simp⟩
    obtain ⟨⟨⟨t, v, c⟩, C'⟩, res, out, err, calls⟩ := s
    simp only at hV
    subst hV
    simp
  | succ k ih =>
    obtain ⟨s₁, h₁, hcap, hres, hcalls, hcout⟩ := loopBody_step dt i s V I C J hV hI hC hJ
    obtain ⟨J', hJ'⟩ := updateCurrent_current_some s.res dt C J hJ
    obtain ⟨s₂, h₂, hcap₂, hres₂, hcalls₂, hcout₂⟩ :=
      ih (i + 1) s₁ (V + I * dt * (1 / C)) J' (by rw [hcap]) (by rw [hcap]; exact hI)
        (by rw [hcap]; exact hC) (by rw [hres]; exact hJ')
    refine ⟨s₂, by simp only [forLoop, h₁, h₂], ?_, ?_, ?_, ?_⟩
    · rw [hcap₂, hcap, Function.iterate_succ_apply]
    · rw [hres₂, hres]
      simp only [Resister.updateCurrentTimes, Function.iterate_succ_apply]
    · rw [hcalls₂, hcalls, List.replicate_succ, List.flatten_cons, List.append_assoc]
    · rw [hcout₂, hcout, List.range'_succ, List.filter_cons]
      by_cases hi : i % 200 = 0 <;> simp [hi]

/-- In exact arithmetic `k` equal increments add up to `k` times the increment. -/
theorem iterate_increment_exact (V I C dt : ℚ) (k : ℕ) :
    (fun v => v + I * dt * (1 / C))^[k] V = V + k * (I * dt / C) := by
  induction k generalizing V with
  | zero => simp
  | succ k ih =>
    rw [Function.iterate_succ_apply, ih]
    push_cast
    ring

/-- The loop of the driver from its initial state, in exact arithmetic and closed form. -/
theorem forLoop_init_steps (n : ℕ) :
    ∃ s, forLoop (deltaT ℚ) 0 n (init ℚ) = some s ∧
      s.cap = { (init ℚ).cap with voltage := some (0 + n * (1e-2 * deltaT ℚ / 100e-12)) } ∧
      s.res = (init ℚ).res.updateCurrentTimes (deltaT ℚ) 100e-12 n ∧
      s.cout.map Sample.time
        = ((List.range n).filter (fun j => j % 200 = 0)).map (fun j => (j : ℚ) * deltaT ℚ) := by
  obtain ⟨s, hs, hcap, hres, -, hcout⟩ :=
    forLoop_steps (deltaT ℚ) n 0 (init ℚ) 0 1e-2 100e-12 1e-2 (by norm_num [init]) rfl rfl rfl
  refine ⟨s, hs, ?_, hres, ?_⟩
  · rw [hcap, iterate_increment_exact]
  · rw [hcout, List.range_eq_range']
    simp [init]

/-- C14: from the initial state of the driver, after any number `n` of iterations of the
loop the `time` slot of the capacitor and of the resistor still holds `0`, while the status
lines written so far report the times `i * deltaT` of the multiples `i` of `200` below
`n`. -/
theorem C14_time_never_advances (n : ℕ) :
    ∃ s, forLoop (deltaT ℚ) 0 n (init ℚ) = some s ∧
      s.cap.getTime = some 0 ∧ s.res.getTime = some 0 ∧
      s.cout.map Sample.time
        = ((List.range n).filter (fun i => i % 200 = 0)).map (fun i => (i : ℚ) * deltaT ℚ) := by
  obtain ⟨s, hs, hcap, hres, hcout⟩ := forLoop_init_steps n
  refine ⟨s, hs, ?_, ?_, hcout⟩
  · rw [hcap]
    norm_num [Component.getTime, init]
  · rw [hres]
    simp only [Component.getTime,
      (updateCurrentTimes_frame (init ℚ).res (deltaT ℚ) 100e-12 n).1]
    norm_num [init]

/-- The voltage ramp in exact rational arithmetic: the general statement, the instance of
the driver, and the end of `main`. -/
theorem voltage_ramp_exact :
    (∀ (s : Sim ℚ) (V0 I0 C J dt : ℚ) (n : ℕ), s.cap.voltage = some V0 →
        s.cap.current = some I0 → s.cap.C = some C → C ≠ 0 → s.res.current = some J →
        ∃ s', forLoop dt 0 n s = some s' ∧
          s'.cap.voltage = some (V0 + n * (I0 * dt / C)) ∧ s'.cap.current = some I0) ∧
      (∀ n : ℕ, ∃ s, forLoop (deltaT ℚ) 0 n (init ℚ) = some s ∧
          s.cap.voltage = some (0.01 * (n : ℚ)) ∧ s.cap.current = some 1e-2) ∧
      ∃ s, main ℚ = some (0, s) ∧ s.cap.getVoltage = some 500 := by
  refine ⟨?_, ?_, ?_⟩
  · intro s V0 I0 C J dt n hV hI hC _ hJ
    obtain ⟨s', hs', hcap, -, -, -⟩ := forLoop_steps dt n 0 s V0 I0 C J hV hI hC hJ
    exact ⟨s', hs', by rw [hcap, iterate_increment_exact], by rw [hcap]; exact hI⟩
  · intro n
    obtain ⟨s, hs, hcap, -, -⟩ := forLoop_init_steps n
    refine ⟨s, hs, ?_, by rw [hcap]; rfl⟩
    rw [hcap]
    norm_num [deltaT]
    ring
  · obtain ⟨s, hs, hcap, -, -⟩ := forLoop_init_steps 50000
    refine ⟨s, ?_, ?_⟩
    · show ((numTimeSteps ℚ).bind fun n =>
        (forLoop (deltaT ℚ) 0 n.toNat (init ℚ)).bind fun s => some (0, s)) = some (0, s)
      rw [numTimeSteps_eq, Option.some_bind]
      show ((forLoop (deltaT ℚ) 0 50000 (init ℚ)).bind fun s => some (0, s)) = some (0, s)
      rw [hs, Option.some_bind]
    · rw [hcap]
      norm_num [Component.getVoltage, deltaT]

/-- C15, amended: on every state of the driver whose capacitor holds a voltage `V0`, a
current `I0` and a capacitance `C` (and whose resistor holds some current, whatever it and
the resistance are), `n` iterations of the loop leave the capacitor current `I0` and the
capacitor voltage obtained from `V0` by `n` successive additions of the same increment
`I0 * deltaT * (1 / C)`, in every arithmetic, binary64 included; in exact rational
arithmetic with `C ≠ 0` that voltage is `V0 + n * (I0 * deltaT / C)`, with the values of the
driver `0.01 * n`, and `main` ends with `500` volts. -/
theorem C15_voltage_ramp :
    (∀ (α : Type) [Add α] [Sub α] [Mul α] [Div α] [One α] [NatCast α]
        (s : Sim α) (V0 I0 C J dt : α) (n : ℕ), s.cap.voltage = some V0 →
        s.cap.current = some I0 → s.cap.C = some C → s.res.current = some J →
        ∃ s', forLoop dt 0 n s = some s' ∧
          s'.cap.voltage = some ((fun v => v + I0 * dt * (1 / C))^[n] V0) ∧
          s'.cap.current = some I0) ∧
      (∀ (s : Sim ℚ) (V0 I0 C J dt : ℚ) (n : ℕ), s.cap.voltage = some V0 →
        s.cap.current = some I0 → s.cap.C = some C → C ≠ 0 → s.res.current = some J →
        ∃ s', forLoop dt 0 n s = some s' ∧
          s'.cap.voltage = some (V0 + n * (I0 * dt / C)) ∧ s'.cap.current = some I0) ∧
      (∀ n : ℕ, ∃ s, forLoop (deltaT ℚ) 0 n (init ℚ) = some s ∧
          s.cap.voltage = some (0.01 * (n : ℚ)) ∧ s.cap.current = some 1e-2) ∧
      ∃ s, main ℚ = some (0, s) ∧ s.cap.getVoltage = some 500 := by
  refine ⟨?_, voltage_ramp_exact⟩
  intro α _ _ _ _ _ _ s V0 I0 C J dt n hV hI hC hJ
  obtain ⟨s', hs', hcap, -, -, -⟩ := forLoop_steps dt n 0 s V0 I0 C J hV hI hC hJ
  exact ⟨s', hs', by rw [hcap], by rw [hcap]; exact hI⟩

/-- Witness of C15, amended: the first part in binary64 and the second in exact
arithmetic, both at the initial state of the driver and three iterations. -/
theorem C15_voltage_ramp_witness :
    (∃ s', forLoop (deltaT Binary64) 0 3 (init Binary64) = some s' ∧
        s'.cap.voltage
          = some ((fun v : Binary64 => v + 1e-2 * deltaT Binary64 * (1 / 100e-12))^[3] 0.0) ∧
        s'.cap.current = some 1e-2) ∧
      ∃ s', forLoop (deltaT ℚ) 0 3 (init ℚ) = some s' ∧
        s'.cap.voltage = some (0 + (3 : ℕ) * (1e-2 * deltaT ℚ / 100e-12)) ∧
        s'.cap.current = some 1e-2 :=
  ⟨C15_voltage_ramp.1 Binary64 (init Binary64) 0.0 1e-2 100e-12 1e-2 (deltaT Binary64) 3
      rfl rfl rfl rfl,
    C15_voltage_ramp.2.1 (init ℚ) 0 1e-2 100e-12 1e-2 (deltaT ℚ) 3 (by norm_num [init]) rfl rfl
      (by norm_num) rfl⟩

/-- C15 as the specification states it fails in binary64: after six iterations of the loop
from the initial state of the driver the capacitor voltage is `0.060000000000000005`
(`8646911284551353 * 2 ^ (-57)`), which is neither the binary64 value of
`V0 + n * (I0 * deltaT / C)` (`0.06`, significand `8646911284551352`) nor the rational
number `0.01 * 6`. -/
theorem C15_binary64_counterexample :
    (forLoop (deltaT Binary64) 0 6 (init Binary64)).map (fun s => s.cap.voltage)
        = some (some (Binary64.fin false 8646911284551353 (-57))) ∧
      ((0.0 : Binary64) + 6 * (1e-2 * deltaT Binary64 / 100e-12))
        = Binary64.fin false 8646911284551352 (-57) ∧
      (forLoop (deltaT Binary64) 0 6 (init Binary64)).map (fun s => s.cap.voltage)
        ≠ some (some (0.0 + 6 * (1e-2 * deltaT Binary64 / 100e-12))) ∧
      (Binary64.fin false 8646911284551353 (-57)).toRat ≠ some (0.01 * 6) := by
  refine ⟨by decide, by decide, by decide, ?_⟩
  norm_num [Binary64.toRat]

/-- Closed form in exact rational arithmetic: on a resistor whose slots hold a current `I0`
and a resistance `r`, `n` successive calls `updateCurrent(deltaT, C)` leave the current
`I0 * (1 - deltaT / (r * C)) ^ n`; the same holds whatever is put in the voltage slot of
the resistor, and in the loop of the driver whatever voltage and current the capacitor
holds. -/
theorem decay_closed_form_exact (self : Resister ℚ) (I0 r dt C : ℚ) (n : ℕ)
    (hI : self.current = some I0) (hr : self.r = some r) :
    (self.updateCurrentTimes dt C n).current = some (I0 * (1 - dt / (r * C)) ^ n) ∧
      (∀ v : Option ℚ, ((self.setVoltage v).updateCurrentTimes dt C n).current
        = some (I0 * (1 - dt / (r * C)) ^ n)) ∧
      (∀ (s : Sim ℚ) (V I : ℚ), s.res = self → s.cap.voltage = some V →
        s.cap.current = some I → s.cap.C = some C →
        ∃ s', forLoop dt 0 n s = some s' ∧
          s'.res.current = some (I0 * (1 - dt / (r * C)) ^ n)) := by
  refine ⟨?_, ?_, ?_⟩
  · rw [updateCurrentTimes_eq self I0 r dt C hI hr n]
  · intro v
    rw [updateCurrentTimes_eq (self.setVoltage v) I0 r dt C hI hr n]
  · intro s V I hres hV hIc hC
    obtain ⟨s', hs', -, hres', -, -⟩ :=
      forLoop_steps dt n 0 s V I C I0 hV hIc hC (by rw [hres]; exact hI)
    refine ⟨s', hs', ?_⟩
    rw [hres', hres, updateCurrentTimes_eq self I0 r dt C hI hr n]

/-- C16, amended: on a resistor whose slots hold a current `I0` and a resistance `r`, `n`
successive calls `updateCurrent(deltaT, C)` leave the current obtained from `I0` by `n`
applications of `I ↦ I - (I / (r * C)) * deltaT`, whatever is put in the voltage slot of
the resistor, and in the loop of the driver whatever voltage and current the capacitor
holds, in every arithmetic, binary64 included; in exact rational arithmetic with
`r * C ≠ 0` that current is `I0 * (1 - deltaT / (r * C)) ^ n`. -/
theorem C16_decay_iterates :
    (∀ (α : Type) [Add α] [Sub α] [Mul α] [Div α] [One α] [NatCast α]
        (self : Resister α) (I0 r dt C : α) (n : ℕ),
        self.current = some I0 → self.r = some r →
        (self.updateCurrentTimes dt C n).current
            = some ((fun I => I - (I / (r * C)) * dt)^[n] I0) ∧
          (∀ v : Option α, ((self.setVoltage v).updateCurrentTimes dt C n).current
            = some ((fun I => I - (I / (r * C)) * dt)^[n] I0)) ∧
          (∀ (s : Sim α) (V I : α), s.res = self → s.cap.voltage = some V →
            s.cap.current = some I → s.cap.C = some C →
            ∃ s', forLoop dt 0 n s = some s' ∧
              s'.res.current = some ((fun I => I - (I / (r * C)) * dt)^[n] I0))) ∧
      (∀ (self : Resister ℚ) (I0 r dt C : ℚ) (n : ℕ),
        self.current = some I0 → self.r = some r → r * C ≠ 0 →
        (self.updateCurrentTimes dt C n).current = some (I0 * (1 - dt / (r * C)) ^ n) ∧
          (∀ v : Option ℚ, ((self.setVoltage v).updateCurrentTimes dt C n).current
            = some (I0 * (1 - dt / (r * C)) ^ n)) ∧
          (∀ (s : Sim ℚ) (V I : ℚ), s.res = self → s.cap.voltage = some V →
            s.cap.current = some I → s.cap.C = some C →
            ∃ s', forLoop dt 0 n s = some s' ∧
              s'.res.current = some (I0 * (1 - dt / (r * C)) ^ n))) := by
  refine ⟨?_, ?_⟩
  · intro α _ _ _ _ _ _ self I0 r dt C n hI hr
    refine ⟨?_, ?_, ?_⟩
    · rw [updateCurrentTimes_iterate self I0 r dt C hI hr n]
    · intro v
      rw [updateCurrentTimes_iterate (self.setVoltage v) I0 r dt C hI hr n]
    · intro s V I hres hV hIc hC
      obtain ⟨s', hs', -, hres', -, -⟩ :=
        forLoop_steps dt n 0 s V I C I0 hV hIc hC (by rw [hres]; exact hI)
      refine ⟨s', hs', ?_⟩
      rw [hres', hres, updateCurrentTimes_iterate self I0 r dt C hI hr n]
  · intro self I0 r dt C n hI hr _
    exact decay_closed_form_exact self I0 r dt C n hI hr

/-- Witness of C16, amended: the first part in binary64 at `I0 = r = C = 1` and
`deltaT = 0.3`, the second at the resistor of the driver with the step and the capacitance
of the driver, two calls each. -/
theorem C16_decay_iterates_witness :
    ((Resister.updateCurrentTimes
        ({ time := some 0, voltage := some 0, current := some 1, r := some 1 } :
          Resister Binary64) 0.3 1 2).current
        = some ((fun I : Binary64 => I - (I / (1 * 1)) * 0.3)^[2] 1)) ∧
      ((init ℚ).res.updateCurrentTimes (deltaT ℚ) 100e-12 2).current
        = some (1e-2 * (1 - deltaT ℚ / (1e3 * 100e-12)) ^ 2) :=
  ⟨(C16_decay_iterates.1 Binary64 _ 1 1 0.3 1 2 rfl rfl).1,
    (C16_decay_iterates.2 (init ℚ).res 1e-2 1e3 (deltaT ℚ) 100e-12 2 rfl rfl
      (by norm_num)).1⟩

/-- C16 as the specification states it fails in binary64: with `I0 = r = C = 1` (so
`r * C ≠ 0`) and `deltaT = 0.3`, two calls leave the current `0.49`
(`8827055269646172 * 2 ^ (-54)`), which is neither `I0 * (1 - deltaT / (r * C)) ^ 2`
evaluated in binary64 (`0.48999999999999994`, significand `8827055269646171`) nor that
expression evaluated exactly on the value `d` of the binary64 `0.3`. -/
theorem C16_binary64_counterexample :
    ((1 : Binary64) * 1 ≠ 0) ∧
      (Resister.updateCurrentTimes
        ({ time := some 0, voltage := some 0, current := some 1, r := some 1 } :
          Resister Binary64) 0.3 1 2).current = some (Binary64.fin false 8827055269646172 (-54)) ∧
      ((1 : Binary64) * ((1 - 0.3 / (1 * 1)) * (1 - 0.3 / (1 * 1))))
        = Binary64.fin false 8827055269646171 (-54) ∧
      (Resister.updateCurrentTimes
        ({ time := some 0, voltage := some 0, current := some 1, r := some 1 } :
          Resister Binary64) 0.3 1 2).current
        ≠ some (1 * ((1 - 0.3 / (1 * 1)) * (1 - 0.3 / (1 * 1)))) ∧
      (∀ d : ℚ, (0.3 : Binary64).toRat = some d →
        (Binary64.fin false 8827055269646172 (-54)).toRat
          ≠ some (1 * (1 - d / (1 * 1)) ^ 2)) := by
  refine ⟨by decide, by decide, by decide, by decide, ?_⟩
  intro d hd
  have h : (0.3 : Binary64) = Binary64.fin false 5404319552844595 (-54) := by decide
  rw [h] at hd
  simp only [Binary64.toRat, Option.some.injEq] at hd
  subst hd
  norm_num [Binary64.toRat]

/-! ## Stability of the decay step and consistency of the voltage step -/

/-- Stability in exact rational arithmetic: for `r > 0`, `C > 0`, `deltaT > 0` and a
non-zero current `I`, the current `I'`
stored by one call `updateCurrent(deltaT, C)` satisfies `|I'| ≤ |I|` exactly when
`deltaT ≤ 2 * r * C`, is `0` exactly when `deltaT = r * C`, and has the sign opposite to
that of `I` exactly when `deltaT > r * C`. -/
theorem stability_bound_exact (self : Resister ℚ) (I r C dt : ℚ)
    (hI : self.current = some I) (hr : self.r = some r)
    (hr0 : 0 < r) (hC0 : 0 < C) (hd0 : 0 < dt) (hI0 : I ≠ 0) :
    ∃ I', (self.updateCurrent dt C).1.current = some I' ∧
      (|I'| ≤ |I| ↔ dt ≤ 2 * r * C) ∧
      (I' = 0 ↔ dt = r * C) ∧
      (SignType.sign I' = -SignType.sign I ↔ r * C < dt) := by
  have ha : 0 < r * C := mul_pos hr0 hC0
  have hq : I - I / (r * C) * dt = I * (1 - dt / (r * C)) := by ring
  have hpos : 0 < dt / (r * C) := div_pos hd0 ha
  have hq0 : 1 - dt / (r * C) < 0 ↔ r * C < dt := by
    rw [sub_neg, one_lt_div ha]
  refine ⟨I - I / (r * C) * dt, by simp only [Resister.updateCurrent, hI, hr], ?_, ?_, ?_⟩
  · rw [hq, abs_mul, mul_le_iff_le_one_right (abs_pos.mpr hI0), abs_le]
    constructor
    · rintro ⟨h, -⟩
      have h2 : dt / (r * C) ≤ 2 := by linarith
      rw [div_le_iff₀ ha] at h2
      linarith
    · intro h
      have h2 : dt / (r * C) ≤ 2 := by
        rw [div_le_iff₀ ha]
        linarith
      constructor <;> linarith
  · rw [hq, mul_eq_zero, or_iff_right hI0, sub_eq_zero, eq_comm, div_eq_one_iff_eq ha.ne']
  · rw [hq, sign_mul, ← hq0]
    rcases lt_or_gt_of_ne hI0 with hIn | hIp <;>
      rcases lt_trichotomy (1 - dt / (r * C)) 0 with h | h | h
    · simp [sign_neg hIn, sign_neg h, h]
    · simp [sign_neg hIn, h]
    · simp [sign_neg hIn, sign_pos h, h.le, not_lt.mpr h.le]
    · simp [sign_pos hIp, sign_neg h, h]
    · simp [sign_pos hIp, h]
    · simp [sign_pos hIp, sign_pos h, h.le, not_lt.mpr h.le]

/-- C17, amended: on a resistor whose slots hold a current `I` and a resistance `r`, one
call `updateCurrent(deltaT, C)` stores `I' = I - (I / (r * C)) * deltaT` in every
arithmetic, binary64 included; in exact rational arithmetic, for `r > 0`, `C > 0`,
`deltaT > 0` and `I ≠ 0`, `|I'| ≤ |I|` exactly when `deltaT ≤ 2 * r * C`, `I' = 0` exactly
when `deltaT = r * C`, and the sign of `I'` is opposite to that of `I` exactly when
`deltaT > r * C`. -/
theorem C17_stability_bound :
    (∀ (α : Type) [Sub α] [Mul α] [Div α] (self : Resister α) (I r C dt : α),
        self.current = some I → self.r = some r →
        (self.updateCurrent dt C).1.current = some (I - (I / (r * C)) * dt)) ∧
      (∀ (self : Resister ℚ) (I r C dt : ℚ),
        self.current = some I → self.r = some r →
        0 < r → 0 < C → 0 < dt → I ≠ 0 →
        ∃ I', (self.updateCurrent dt C).1.current = some I' ∧
          (|I'| ≤ |I| ↔ dt ≤ 2 * r * C) ∧
          (I' = 0 ↔ dt = r * C) ∧
          (SignType.sign I' = -SignType.sign I ↔ r * C < dt)) := by
  refine ⟨?_, ?_⟩
  · intro α _ _ _ self I r C dt hI hr
    simp only [Resister.updateCurrent, hI, hr]
  · intro self I r C dt hI hr hr0 hC0 hd0 hI0
    exact stability_bound_exact self I r C dt hI hr hr0 hC0 hd0 hI0

/-- Witness of C17, amended: the first part in binary64 at `I = 1`, `r = 49`, `C = 1`,
`deltaT = 49`; the second at current `1`, `r = 2`, `C = 3` and `deltaT = 9`, between `r * C`
and `2 * r * C`, where the new current is `1 - 1 / 6 * 9 = -1 / 2`. -/
theorem C17_stability_bound_witness :
    ((Resister.updateCurrent
        ({ time := some 0, voltage := some 0, current := some 1, r := some 49 } :
          Resister Binary64) 49 1).1.current = some (1 - (1 / (49 * 1)) * 49)) ∧
      ∃ I', (Resister.updateCurrent
          ({ time := some 0, voltage := some 0, current := some 1, r := some 2 } :
            Resister ℚ) 9 3).1.current = some I' ∧
        (|I'| ≤ |(1 : ℚ)| ↔ (9 : ℚ) ≤ 2 * 2 * 3) ∧
        (I' = 0 ↔ (9 : ℚ) = 2 * 3) ∧
        (SignType.sign I' = -SignType.sign (1 : ℚ) ↔ (2 : ℚ) * 3 < 9) :=
  ⟨C17_stability_bound.1 Binary64 _ 1 49 1 49 rfl rfl,
    C17_stability_bound.2 _ 1 2 3 9 rfl rfl (by norm_num) (by norm_num) (by norm_num)
      (by norm_num)⟩

/-- C17 as the specification states it fails in binary64, in each of its three parts, at
`I = 1` and `C = 1`.  With `r = 49` and `deltaT = 49 = r * C` the stored current is
`2 ^ (-53)` (about `1.1e-16`), not `0`.  With `r = 3` and `deltaT = 3 + 2 ^ (-51) > r * C`
the stored current is `0`: no flip of the sign.  With `r = 3` and
`deltaT = 6 + 2 ^ (-50) > 2 * r * C` the stored current is `-1`, and `|-1| ≤ |1|`. -/
theorem C17_binary64_counterexample :
    ((0 : Binary64) < 49 ∧ (0 : Binary64) < 3 ∧ (0 : Binary64) < 1 ∧ (1 : Binary64) ≠ 0) ∧
      ((49 : Binary64) = 49 * 1 ∧
        (Resister.updateCurrent
          ({ time := some 0, voltage := some 0, current := some 1, r := some 49 } :
            Resister Binary64) 49 1).1.current
          = some (Binary64.fin false 4503599627370496 (-105)) ∧
        (0 : Binary64) < Binary64.fin false 4503599627370496 (-105)) ∧
      ((3 : Binary64) * 1 < Binary64.fin false 6755399441055745 (-51) ∧
        (Resister.updateCurrent
          ({ time := some 0, voltage := some 0, current := some 1, r := some 3 } :
            Resister Binary64) (Binary64.fin false 6755399441055745 (-51)) 1).1.current
          = some 0) ∧
      ((2 : Binary64) * 3 * 1 < Binary64.fin false 6755399441055745 (-50) ∧
        (Resister.updateCurrent
          ({ time := some 0, voltage := some 0, current := some 1, r := some 3 } :
            Resister Binary64) (Binary64.fin false 6755399441055745 (-50)) 1).1.current
          = some (-1) ∧
        ¬ ((1 : Binary64) < 1)) := by
  decide

/-- Consistency in exact rational arithmetic: on a capacitor whose slots hold a voltage `V`
and a capacitance `C ≠ 0`, for every
`I`, every `t` and every `deltaT ≠ 0`, with `V'` the voltage stored by
`updateVoltage(I, deltaT)`, the call `calculateCurrent(calculateDerivative(V, V', t,
t + deltaT))` returns `I`, before the update as after it. -/
theorem step_consistent_exact (self : Capacator ℚ) (V C I t dt : ℚ)
    (hV : self.voltage = some V) (hC : self.C = some C) (hC0 : C ≠ 0) (hd : dt ≠ 0) :
    ∃ V', (self.updateVoltage I dt).1.voltage = some V' ∧
      ((self.updateVoltage I dt).1.calculateCurrent
        (calculateDerivative V V' t (t + dt))).1 = some I ∧
      (self.calculateCurrent (calculateDerivative V V' t (t + dt))).1 = some I := by
  have hC' : (self.updateVoltage I dt).1.C = some C :=
    (updateVoltage_frame self I dt).2.2.trans hC
  have hval : C * calculateDerivative V (V + I * dt * (1 / C)) t (t + dt) = I := by
    unfold calculateDerivative
    field_simp
    ring
  refine ⟨V + I * dt * (1 / C), by simp only [Capacator.updateVoltage, hV, hC], ?_, ?_⟩
  · simp only [Capacator.calculateCurrent, hC', hval]
  · simp only [Capacator.calculateCurrent, hC, hval]

/-- C18, amended: on a capacitor whose slots hold a voltage `V` and a capacitance `C`,
with `V' = V + I * deltaT * (1 / C)` the voltage stored by `updateVoltage(I, deltaT)`, the
call `calculateCurrent(calculateDerivative(V, V', t, t + deltaT))` returns
`C * ((V' - V) / ((t + deltaT) - t))`, before the update as after it, in every arithmetic,
binary64 included; in exact rational arithmetic with `C ≠ 0` and `deltaT ≠ 0` that value
is `I`. -/
theorem C18_step_round_trip :
    (∀ (α : Type) [Add α] [Sub α] [Mul α] [Div α] [One α]
        (self : Capacator α) (V C I t dt : α),
        self.voltage = some V → self.C = some C →
        (self.updateVoltage I dt).1.voltage = some (V + I * dt * (1 / C)) ∧
          ((self.updateVoltage I dt).1.calculateCurrent
            (calculateDerivative V (V + I * dt * (1 / C)) t (t + dt))).1
            = some (C * ((V + I * dt * (1 / C) - V) / (t + dt - t))) ∧
          (self.calculateCurrent
            (calculateDerivative V (V + I * dt * (1 / C)) t (t + dt))).1
            = some (C * ((V + I * dt * (1 / C) - V) / (t + dt - t)))) ∧
      (∀ (self : Capacator ℚ) (V C I t dt : ℚ),
        self.voltage = some V → self.C = some C → C ≠ 0 → dt ≠ 0 →
        ∃ V', (self.updateVoltage I dt).1.voltage = some V' ∧
          ((self.updateVoltage I dt).1.calculateCurrent
            (calculateDerivative V V' t (t + dt))).1 = some I ∧
          (self.calculateCurrent (calculateDerivative V V' t (t + dt))).1 = some I) := by
  refine ⟨?_, ?_⟩
  · intro α _ _ _ _ _ self V C I t dt hV hC
    have hC' : (self.updateVoltage I dt).1.C = some C :=
      (updateVoltage_frame self I dt).2.2.trans hC
    refine ⟨by simp only [Capacator.updateVoltage, hV, hC], ?_, ?_⟩
    · simp only [Capacator.calculateCurrent, hC', calculateDerivative]
    · simp only [Capacator.calculateCurrent, hC, calculateDerivative]
  · intro self V C I t dt hV hC hC0 hd
    exact step_consistent_exact self V C I t dt hV hC hC0 hd

/-- Witness of C18, amended: the first part in binary64 at `V = 0`, `C = 10`, `I = 3`,
`t = 0`, `deltaT = 1`; the second at voltage `5`, capacitance `2`, `I = 3`, `t = 1`,
`deltaT = 4`. -/
theorem C18_step_round_trip_witness :
    ((Capacator.calculateCurrent
        ({ time := some 0, voltage := some 0, current := some 3, C := some 10 } :
          Capacator Binary64)
        (calculateDerivative 0 (0 + 3 * 1 * (1 / 10)) 0 (0 + 1))).1
        = some (10 * ((0 + 3 * 1 * (1 / 10) - 0) / (0 + 1 - 0)))) ∧
      ∃ V', (Capacator.updateVoltage
          ({ time := some 0, voltage := some 5, current := some 0, C := some 2 } :
            Capacator ℚ) 3 4).1.voltage = some V' ∧
        ((Capacator.updateVoltage
          ({ time := some 0, voltage := some 5, current := some 0, C := some 2 } :
            Capacator ℚ) 3 4).1.calculateCurrent (calculateDerivative 5 V' 1 (1 + 4))).1
          = some 3 ∧
        (Capacator.calculateCurrent
          ({ time := some 0, voltage := some 5, current := some 0, C := some 2 } :
            Capacator ℚ) (calculateDerivative 5 V' 1 (1 + 4))).1 = some 3 :=
  ⟨(C18_step_round_trip.1 Binary64 _ 0 10 3 0 1 rfl rfl).2.2,
    C18_step_round_trip.2 _ 5 2 3 1 4 rfl rfl (by norm_num) (by norm_num)⟩

/-- C18 as the specification states it fails in binary64: with `V = 0`, `C = 10`, `I = 3`,
`t = 0` and `deltaT = 1` the stored voltage is `0.30000000000000004` and the round trip
returns `3.0000000000000004` (`6755399441055745 * 2 ^ (-51)`), not `3`. -/
theorem C18_binary64_counterexample :
    ((10 : Binary64) ≠ 0 ∧ (1 : Binary64) ≠ 0) ∧
      (Capacator.updateVoltage
        ({ time := some 0, voltage := some 0, current := some 3, C := some 10 } :
          Capacator Binary64) 3 1).1.voltage = some (Binary64.fin false 5404319552844596 (-54)) ∧
      ((Capacator.updateVoltage
        ({ time := some 0, voltage := some 0, current := some 3, C := some 10 } :
          Capacator Binary64) 3 1).1.calculateCurrent
          (calculateDerivative 0 (Binary64.fin false 5404319552844596 (-54)) 0 (0 + 1))).1
        = some (Binary64.fin false 6755399441055745 (-51)) ∧
      (3 : Binary64) = Binary64.fin false 6755399441055744 (-51) ∧
      ((Capacator.updateVoltage
        ({ time := some 0, voltage := some 0, current := some 3, C := some 10 } :
          Capacator Binary64) 3 1).1.calculateCurrent
          (calculateDerivative 0 (Binary64.fin false 5404319552844596 (-54)) 0 (0 + 1))).1
        ≠ some 3 := by
  decide

/-! ## Safety of the run -/

/-- On a fully initialised state the getters of an iteration read values and both updates
take their success branch. -/
theorem loopBody_success {α : Type} [Add α] [Sub α] [Mul α] [Div α] [One α]
    (deltaT : α) (s : Sim α) (h : s.initialised = true) :
    ∃ I C, s.cap.getCurrent = some I ∧ (s.cap.updateVoltage I deltaT).2 = [] ∧
      (s.cap.updateVoltage I deltaT).1.getC = some C ∧
      (s.res.updateCurrent deltaT C).2 = [] := by
  obtain ⟨⟨⟨t, v, c⟩, C⟩, ⟨⟨t', v', c'⟩, r⟩, out, err, calls⟩ := s
  simp only [Sim.initialised, Bool.and_eq_true, Option.isSome_iff_exists] at h
  obtain ⟨⟨⟨⟨⟨⟨⟨⟨t, rfl⟩, ⟨v, rfl⟩⟩, ⟨c, rfl⟩⟩, ⟨C, rfl⟩⟩, ⟨t', rfl⟩⟩, ⟨v', rfl⟩⟩, ⟨c', rfl⟩⟩,
    ⟨r, rfl⟩⟩ := h
  exact ⟨c, C, rfl, rfl, rfl, rfl⟩

/-- A fully initialised state answers the two getters of the status line. -/
theorem initialised_getters {α : Type} (s : Sim α) (h : s.initialised = true) :
    ∃ v j, s.cap.getVoltage = some v ∧ s.res.getCurrent = some j := by
  simp only [Sim.initialised, Bool.and_eq_true, Option.isSome_iff_exists] at h
  obtain ⟨⟨⟨⟨⟨⟨⟨-, ⟨v, hv⟩⟩, -⟩, -⟩, -⟩, -⟩, ⟨j, hj⟩⟩, -⟩ := h
  exact ⟨v, j, hv, hj⟩

/-- C19: in the run of the driver every slot of both objects holds a value at
construction; the step count is `50000`; at every index `i < 50000` the loop has reached a
state `s` with every slot still holding a value, the getters `getCurrent` and `getC` read
values, `updateVoltage` and `updateCurrent` write nothing to `std::cerr`, and the iteration
ends in a state `s'` with every slot holding a value, the getters of the status line
answered and `std::cerr` empty; and `main` returns `0` after `50000` iterations with
`std::cerr` empty. -/
theorem C19_driver_safe :
    (init ℚ).initialised = true ∧ numTimeSteps ℚ = some 50000 ∧
      (∀ i : ℕ, i < 50000 → ∃ s I C s' v j,
        forLoop (deltaT ℚ) 0 i (init ℚ) = some s ∧ s.initialised = true ∧
        s.cap.getCurrent = some I ∧ (s.cap.updateVoltage I (deltaT ℚ)).2 = [] ∧
        (s.cap.updateVoltage I (deltaT ℚ)).1.getC = some C ∧
        (s.res.updateCurrent (deltaT ℚ) C).2 = [] ∧
        loopBody (deltaT ℚ) i s = some s' ∧ s'.initialised = true ∧
        s'.cap.getVoltage = some v ∧ s'.res.getCurrent = some j ∧ s'.cerr = []) ∧
      ∃ s, main ℚ = some (0, s) ∧ s.initialised = true ∧ s.cerr = [] ∧
        s.calls = (List.replicate 50000 [Call.updateVoltage, Call.updateCurrent]).flatten := by
  have hinit : (init ℚ).initialised = true := by decide
  refine ⟨hinit, numTimeSteps_eq, ?_, ?_⟩
  · intro i _
    obtain ⟨s, hs, hsi, -, hcerr⟩ := forLoop_initialised (deltaT ℚ) i 0 (init ℚ) hinit
    obtain ⟨I, C, h₁, h₂, h₃, h₄⟩ := loopBody_success (deltaT ℚ) s hsi
    obtain ⟨s', hs', hsi', -, hcerr'⟩ := loopBody_initialised (deltaT ℚ) i s hsi
    obtain ⟨v, j, hv, hj⟩ := initialised_getters s' hsi'
    exact ⟨s, I, C, s', v, j, hs, hsi, h₁, h₂, h₃, h₄, hs', hsi', hv, hj,
      hcerr'.trans hcerr⟩
  · obtain ⟨s, hs, hsi, hcalls, hcerr⟩ := forLoop_initialised (deltaT ℚ) 50000 0 (init ℚ) hinit
    refine ⟨s, ?_, hsi, hcerr, hcalls.trans (List.nil_append _)⟩
    show ((numTimeSteps ℚ).bind fun n =>
      (forLoop (deltaT ℚ) 0 n.toNat (init ℚ)).bind fun s => some (0, s)) = some (0, s)
    rw [numTimeSteps_eq, Option.some_bind]
    show ((forLoop (deltaT ℚ) 0 50000 (init ℚ)).bind fun s => some (0, s)) = some (0, s)
    rw [hs, Option.some_bind]


/-! ## The run in binary64 -/

/-- Function `main` is the step count followed by the loop. -/
theorem main_eq (α : Type) [Add α] [Sub α] [Mul α] [Div α] [One α] [NatCast α]
    [OfScientific α] [ToInt α] :
    main α = (numTimeSteps α).bind fun n =>
      (forLoop (deltaT α) 0 n.toNat (init α)).bind fun s => some (0, s) := rfl

/-- The run of the driver in binary64: the step count is `50000`, and `main` returns `0`
after `50000` pairs of calls with every slot still holding a value and `std::cerr` empty. -/
theorem main_binary64 :
    numTimeSteps Binary64 = some 50000 ∧
      ∃ s, main Binary64 = some (0, s) ∧ s.initialised = true ∧ s.cerr = [] ∧
        s.calls = (List.replicate 50000 [Call.updateVoltage, Call.updateCurrent]).flatten := by
  have hn : numTimeSteps Binary64 = some 50000 := numTimeSteps_binary64.2
  obtain ⟨s, hs, hsi, hcalls, hcerr⟩ :=
    forLoop_initialised (deltaT Binary64) 50000 0 (init Binary64) (by decide)
  refine ⟨hn, s, ?_, hsi, hcerr, hcalls.trans (List.nil_append _)⟩
  have h50000 : (50000 : Int).toNat = 50000 := rfl
  rw [main_eq, hn, Option.some_bind, h50000, hs, Option.some_bind]

/-- In binary64 too the loop never touches the `time` slots, and the capacitor keeps its
current, after any number of iterations. -/
theorem forLoop_frame_binary64 (n : ℕ) :
    ∃ s, forLoop (deltaT Binary64) 0 n (init Binary64) = some s ∧
      s.cap.getTime = some 0.0 ∧ s.res.getTime = some 0.0 ∧ s.cap.getCurrent = some 1e-2 := by
  obtain ⟨s, hs, hcap, hres, -, -⟩ :=
    forLoop_steps (deltaT Binary64) n 0 (init Binary64) 0.0 1e-2 100e-12 1e-2 rfl rfl rfl rfl
  refine ⟨s, hs, by rw [hcap]; rfl, ?_, by rw [hcap]; rfl⟩
  rw [hres]
  exact (updateCurrentTimes_frame (init Binary64).res (deltaT Binary64) 100e-12 n).1

end RCCircuit
